import Mathlib

/-
Verification of the Dashie dashboard repository.

This file gives a shallow embedding, in Lean 4, of the parts of the
repository that the documented properties talk about:

* the JWT broker edge function (supabase/functions/jwt-auth/index.ts):
  access control, token storage and refresh, settings load/save;
* the navigation/focus state machine (js/core/navigation.js, js/core/state.js);
* the Google Photos Picker client (google-apis/google-picker-client.js):
  HTTP retry policy and session polling.

JavaScript objects with string keys are modelled as association lists with
unique keys (`List (String × α)`), JS numbers that the code uses as integral
millisecond timestamps as `Int`, and the one fractional quantity (the 1.1
polling backoff multiplier) as `ℚ`.  Asynchronous effects (fetch calls,
setTimeout, postMessage) are modelled by passing in the environment's
responses explicitly and by recording emitted effects as event lists.
-/

namespace Dashie

-- ===========================================================================
-- JS object helpers: association lists with unique string keys
-- ===========================================================================

/-- Model of the JS `delete obj[k]` operation on an object with unique keys
(removes every pair whose key is `k`; on a unique-key list this is the same
as removing the one binding). -/
def jsDeleteKey (k : String) : List (String × α) → List (String × α)
  | [] => []
  | p :: rest => if p.1 = k then jsDeleteKey k rest else p :: jsDeleteKey k rest

/-- Model of JS property lookup `obj[k]` returning `undefined` as `none`. -/
def jsLookup (k : String) : List (String × α) → Option α
  | [] => none
  | p :: rest => if p.1 = k then some p.2 else jsLookup k rest

/-- Model of JS assignment `obj[k] = v`: replaces the binding in place when
the key exists, appends it otherwise (JS property-order semantics). -/
def jsSetKey (k : String) (v : α) : List (String × α) → List (String × α)
  | [] => [(k, v)]
  | p :: rest => if p.1 = k then (k, v) :: rest else p :: jsSetKey k v rest

namespace JwtAuth

-- ===========================================================================
-- Token management (supabase/functions/jwt-auth/index.ts)
-- ===========================================================================

/-- A stored OAuth account record, as kept in `user_auth_tokens.tokens`
under `tokens[provider][accountType]`.  `expires_at` is a millisecond
timestamp (the code stores an ISO string and parses it with `new Date`). -/
structure Account where
  email : String
  access_token : String
  refresh_token : String
  expires_at : Int
  scopes : List String
  deriving Repr, DecidableEq

/-- Outcome of the upstream OAuth refresh call (`refreshGoogleToken`):
either a new access token with its `expires_in` in seconds, or an error. -/
inductive RefreshResult where
  | success (access_token : String) (expires_in : Int)
  | failure (err : String)
  deriving Repr, DecidableEq

/-- Response body of the `get_valid_token` operation, restricted to the
fields the properties talk about.  `noAccount` is the
`{error, account_found: false}` body, `refreshFailed` is the
`{error: 'Failed to refresh token', refresh_failed: true, details}` body,
and `token t e r` is the `{access_token: t, expires_at: e, refreshed: r}`
body. -/
inductive TokenResult where
  | noAccount
  | refreshFailed (details : String)
  | token (access_token : String) (expires_at : Int) (refreshed : Bool)
  deriving Repr, DecidableEq

/-- The 5-minute expiry buffer, in milliseconds (`5 * 60 * 1000`). -/
def bufferTime : Int := 5 * 60 * 1000

/-- Embedding of `handleGetValidTokenOperation`.  `acct` is
`tokenData?.tokens?.[provider]?.[accountType]`, `now` is `Date.now()` in
milliseconds, and `refresh` is the outcome the upstream OAuth endpoint
would give if called.  The code refreshes exactly when
`now >= expires_at - bufferTime`; otherwise it returns the stored token
with `refreshed: false`. -/
def handleGetValidTokenOperation (acct : Option Account) (now : Int)
    (refresh : RefreshResult) : TokenResult :=
  match acct with
  | none => .noAccount
  | some account =>
    if now ≥ account.expires_at - bufferTime then
      match refresh with
      | .failure err => .refreshFailed err
      | .success tok expires_in => .token tok (now + expires_in * 1000) true
    else
      .token account.access_token account.expires_at false

/-- Nested token store: `tokens[provider][accountType] = Account`. -/
abbrev ProviderAccounts := List (String × Account)

/-- The full `user_auth_tokens.tokens` JSON value. -/
abbrev Tokens := List (String × ProviderAccounts)

/-- Result of `handleRemoveAccountOperation`: the `removed` flag of the
response body together with the token store as left in the database. -/
structure RemoveResult where
  removed : Bool
  newTokens : Tokens
  deriving Repr, DecidableEq

/-- Embedding of `handleRemoveAccountOperation`.  When
`tokens[provider]?.[accountType]` is missing the operation reports
`removed: false` and writes nothing; otherwise it deletes the account type
and, if the provider object became empty, deletes the provider key too. -/
def handleRemoveAccountOperation (tokens : Tokens) (provider accountType : String) :
    RemoveResult :=
  match jsLookup provider tokens with
  | none => ⟨false, tokens⟩
  | some provAccounts =>
    match jsLookup accountType provAccounts with
    | none => ⟨false, tokens⟩
    | some _ =>
      let updatedProviderAccounts := jsDeleteKey accountType provAccounts
      if updatedProviderAccounts = [] then
        ⟨true, jsDeleteKey provider tokens⟩
      else
        ⟨true, jsSetKey provider updatedProviderAccounts tokens⟩

/-- Embedding of the token-store update performed by
`handleStoreTokensOperation`:
`{...existingTokens, [provider]: {...existingTokens[provider] || {}, [accountType]: accountData}}`. -/
def handleStoreTokensOperation (tokens : Tokens) (provider accountType : String)
    (accountData : Account) : Tokens :=
  jsSetKey provider
    (jsSetKey accountType accountData ((jsLookup provider tokens).getD []))
    tokens

/-- A token store is well-formed when no provider key maps to an empty
object. -/
def NoEmptyProvider (tokens : Tokens) : Prop :=
  ∀ entry ∈ tokens, entry.2 ≠ []

instance : DecidablePred NoEmptyProvider := fun t =>
  inferInstanceAs (Decidable (∀ entry ∈ t, entry.2 ≠ []))

-- ===========================================================================
-- Access control (checkUserAccess and the serve handler)
-- ===========================================================================

/-- The `access_control_config` key/value table, read into a record.  A key
absent from the table is `none` (JS `undefined`). -/
structure AccessConfig where
  maintenance_mode : Option String
  beta_mode_enabled : Option String
  trial_enabled : Option String
  deriving Repr, DecidableEq

/-- Result of `checkUserAccess`, restricted to the fields the serve handler
inspects: the `allowed` flag and the denial `reason`. -/
structure AccessCheck where
  allowed : Bool
  reason : Option String
  deriving Repr, DecidableEq

/-- Embedding of `checkUserAccess`: maintenance mode is checked first, then
beta mode against the `beta_whitelist` table (given here as the list of
whitelisted emails), then trial mode, then the default denial. -/
def checkUserAccess (config : AccessConfig) (whitelist : List String)
    (email : String) : AccessCheck :=
  if config.maintenance_mode = some "true" then
    ⟨false, some "maintenance_mode"⟩
  else if config.beta_mode_enabled = some "true" then
    if email ∈ whitelist then ⟨true, none⟩
    else ⟨false, some "beta_not_whitelisted"⟩
  else if config.trial_enabled = some "true" then ⟨true, none⟩
  else ⟨false, some "access_disabled"⟩

/-- The serve handler's access-control gate for Google-token-authenticated
requests: when `checkUserAccess` denies, the handler responds with HTTP 403
and the denial reason; otherwise it proceeds (`none`). -/
def accessControlResponse (config : AccessConfig) (whitelist : List String)
    (email : String) : Option (Nat × String) :=
  let check := checkUserAccess config whitelist email
  if check.allowed then none
  else some (403, check.reason.getD "")

-- ===========================================================================
-- Settings operations (handleSaveOperation / handleLoadOperation)
-- ===========================================================================

/-- A settings JSON object: string keys mapping to opaque JSON values,
modelled as strings. -/
abbrev SettingsObj := List (String × String)

/-- Embedding of `handleSaveOperation`'s data transformation: the settings
row written to `user_settings` is the input object with `tokenAccounts`
deleted (`const safeSettings = {...settings}; delete safeSettings.tokenAccounts`). -/
def handleSaveOperation (settings : SettingsObj) : SettingsObj :=
  jsDeleteKey "tokenAccounts" settings

/-- Embedding of `handleLoadOperation`: returns the stored settings row for
the user unchanged (`data?.settings || null`). -/
def handleLoadOperation (stored : Option SettingsObj) : Option SettingsObj :=
  stored

-- Concrete sample inputs used by witnesses and counterexamples.

/-- A stored account expiring well in the future (at t = 10,000,000 ms). -/
def acctFresh : Account :=
  ⟨"user@example.com", "storedTok", "refreshTok", 10000000, ["scopeA"]⟩

/-- A stored account expiring exactly five minutes after t = 0. -/
def acctBoundary : Account :=
  ⟨"user@example.com", "storedTok", "refreshTok", 300000, ["scopeA"]⟩

/-- A sample token store with one Google account. -/
def tokensOneGoogle : Tokens :=
  [("google", [("primary", acctFresh)])]

end JwtAuth

namespace Nav

-- ===========================================================================
-- Navigation/focus state machine (js/core/navigation.js, js/core/state.js)
-- ===========================================================================

/-- Direction inputs forwarded to `moveFocus`. -/
inductive Dir where
  | up
  | down
  | left
  | right
  deriving Repr, DecidableEq

/-- The focus union from js/core/state.js:
`{type:"grid", row, col} | {type:"menu", index}`. -/
inductive Focus where
  | grid (row col : Int)
  | menu (index : Int)
  deriving Repr, DecidableEq

/-- True exactly when the focus is a grid focus. -/
def Focus.isGrid : Focus → Bool
  | .grid _ _ => true
  | .menu _ => false

/-- The mutable navigation state from js/core/state.js, restricted to the
fields the navigation logic reads and writes.  `selectedCell` names the
grid position of the widget DOM element stored in `state.selectedCell`
(`none` when no widget is focused); `confirmDialog` is the truthiness of
`state.confirmDialog`. -/
structure NavState where
  currentMain : String
  focus : Focus
  selectedCell : Option (Int × Int)
  isAsleep : Bool
  confirmDialog : Bool
  deriving Repr, DecidableEq

/-- The initial state from js/core/state.js:
`currentMain: "calendar"`, `focus: {type:"grid", row:1, col:1}`,
`selectedCell: null`, `isAsleep: false`, `confirmDialog: null`. -/
def initialState : NavState :=
  ⟨"calendar", .grid 1 1, none, false, false⟩

/-- The `id` fields of the `sidebarOptions` array, in order (the array is
repeated verbatim at each use site in js/core/navigation.js). -/
def sidebarOptionIds : List String :=
  ["calendar", "map", "camera", "reload", "sleep", "settings", "exit"]

/-- Model of JS `Array.prototype.findIndex`: the index of the first element
satisfying `p`, or `-1` when none does. -/
def jsFindIndex (p : String → Bool) : List String → Int
  | [] => -1
  | a :: rest =>
    if p a then 0
    else
      let r := jsFindIndex p rest
      if r < 0 then -1 else r + 1

/-- The sidebar index computed when entering the menu:
`sidebarOptions.findIndex(item => item.id === state.currentMain)` with a
fallback of `0` when `findIndex` returns `-1`. -/
def sidebarIndexOf (currentMain : String) : Int :=
  let i := jsFindIndex (fun id => id == currentMain) sidebarOptionIds
  if i ≥ 0 then i else 0

/-- Model of JS array indexing `sidebarOptions[index]`: `undefined` for a
negative or out-of-range index. -/
def jsIndex (l : List String) (index : Int) : Option String :=
  if h : 0 ≤ index ∧ index.toNat < l.length then some (l.get ⟨index.toNat, h.2⟩)
  else none

/-- The row normalization for the spanning main widget: a move landing on
column 1 row 2 or 3 is treated as the top position (2,1) of the spanning
widget. -/
def normalizeRow (row col : Int) : Int :=
  if col = 1 ∧ (row = 2 ∨ row = 3) then 2 else row

/-- The focus transition of `moveFocus(dir)` once the guards have passed:
grid focus moves with clamping to rows 1..3 and columns 1..2 plus the
spanning-widget normalization, a leftward exit from column 1 entering the
sidebar menu; menu focus moves within index 0..6, a rightward move
returning to grid cell (2,1). -/
def nextFocus (dir : Dir) (currentMain : String) : Focus → Focus
  | .grid row col =>
    match dir with
    | .left =>
      if col = 1 then .menu (sidebarIndexOf currentMain)
      else
        let newCol := if col - 1 < 1 then 1 else col - 1
        .grid (normalizeRow row newCol) newCol
    | .right =>
      let newCol := if col + 1 > 2 then 2 else col + 1
      .grid (normalizeRow row newCol) newCol
    | .up =>
      let newRow := if row - 1 < 1 then 1 else row - 1
      .grid (normalizeRow newRow col) col
    | .down =>
      let newRow := if row + 1 > 3 then 3 else row + 1
      .grid (normalizeRow newRow col) col
  | .menu index =>
    match dir with
    | .up => .menu (max 0 (index - 1))
    | .down => .menu (min ((sidebarOptionIds.length : Int) - 1) (index + 1))
    | .right => .grid 2 1
    | .left => .menu index

/-- Embedding of `moveFocus(dir)`.  Asleep or modal states ignore input; a
focused widget receives the input via `sendToWidget` (no navigation state
change); otherwise the focus moves according to `nextFocus`. -/
def moveFocus (dir : Dir) (s : NavState) : NavState :=
  if s.isAsleep || s.confirmDialog then s
  else if s.selectedCell.isSome then s
  else { s with focus := nextFocus dir s.currentMain s.focus }

/-- A sequence of direction inputs fed to `moveFocus` in order. -/
def moveFocusSeq : List Dir → NavState → NavState
  | [], s => s
  | d :: rest, s => moveFocusSeq rest (moveFocus d s)

/-- The grid-bounds invariant of the focus: a grid focus stays within rows
1..3 and columns 1..2, and column 1 never carries row 3 (the spanning
calendar tile is always addressed by its top row 2). -/
def gridInBounds : Focus → Prop
  | .grid row col => 1 ≤ row ∧ row ≤ 3 ∧ 1 ≤ col ∧ col ≤ 2 ∧ (col = 1 → row ≠ 3)
  | .menu _ => True

instance : DecidablePred gridInBounds := fun f =>
  match f with
  | .grid row col =>
    inferInstanceAs (Decidable (1 ≤ row ∧ row ≤ 3 ∧ 1 ≤ col ∧ col ≤ 2 ∧ (col = 1 → row ≠ 3)))
  | .menu _ => inferInstanceAs (Decidable True)

/-- The widget layout configuration from js/core/state.js (id and grid
placement only). -/
structure WidgetCfg where
  id : String
  row : Int
  col : Int
  rowSpan : Int
  colSpan : Int
  deriving Repr, DecidableEq

/-- The static widget list from js/core/state.js. -/
def widgets : List WidgetCfg :=
  [⟨"header", 1, 1, 1, 1⟩, ⟨"clock", 1, 2, 1, 1⟩, ⟨"main", 2, 1, 2, 1⟩,
   ⟨"agenda", 2, 2, 1, 1⟩, ⟨"photos", 3, 2, 1, 1⟩]

/-- Embedding of `findWidget(row, col)` from js/core/state.js. -/
def findWidget (row col : Int) : Option WidgetCfg :=
  widgets.find? (fun w => w.row == row && w.col == col)

/-- The navigation-state effect of `handleMenuSelection(optionId)`:
selecting a main-content option switches `currentMain`, returns focus to
grid cell (2,1) and closes the sidebar; the system options (reload, sleep,
settings, exit) trigger out-of-scope effects (page reload, modals) and
leave the navigation state unchanged. -/
def handleMenuSelection (optionId : String) (s : NavState) : NavState :=
  if optionId = "calendar" ∨ optionId = "map" ∨ optionId = "camera" then
    { s with currentMain := optionId, focus := .grid 2 1 }
  else s

/-- Embedding of `handleEnter()`.  `elemExists` says whether
`document.querySelector` finds the widget DOM element for the focused grid
cell (grid.js renders one element per configured widget, but the code
guards against its absence).  Under grid focus with a configured widget and
an existing element, the cell becomes the selected (input-receiving)
widget; under menu focus the highlighted sidebar option is executed. -/
def handleEnter (elemExists : Bool) (s : NavState) : NavState :=
  if s.isAsleep || s.confirmDialog then s
  else
    match s.focus with
    | .grid row col =>
      match findWidget row col with
      | some _ => if elemExists then { s with selectedCell := some (row, col) } else s
      | none => s
    | .menu index =>
      match jsIndex sidebarOptionIds index with
      | some optionId => handleMenuSelection optionId s
      | none => s

/-- The navigation-state effect of `handleBack()`: with a widget selected
(and not asleep, no confirm dialog) the selection is cleared after the
escape message round-trip; otherwise only highlight styling changes. -/
def handleBack (s : NavState) : NavState :=
  if s.isAsleep || s.confirmDialog then s
  else if s.selectedCell.isSome then { s with selectedCell := none }
  else s

/-- Embedding of `openMenuWithCurrentSelection()`: refuses to open the menu
while asleep, while a modal is open, or while a widget is selected;
otherwise focuses the sidebar entry matching `currentMain`. -/
def openMenuWithCurrentSelection (s : NavState) : NavState :=
  if s.isAsleep || s.confirmDialog || s.selectedCell.isSome then s
  else { s with focus := .menu (sidebarIndexOf s.currentMain) }

/-- States reachable from the initial state through the four navigation
entry points. -/
inductive Reach : NavState → Prop where
  | init : Reach initialState
  | enter {s : NavState} (b : Bool) : Reach s → Reach (handleEnter b s)
  | move {s : NavState} (d : Dir) : Reach s → Reach (moveFocus d s)
  | back {s : NavState} : Reach s → Reach (handleBack s)
  | openMenu {s : NavState} : Reach s → Reach (openMenuWithCurrentSelection s)

-- ===========================================================================
-- Defocus event traces (handleBack and the hideHighlights timeout path)
-- ===========================================================================

/-- Observable shell effects emitted while defocusing a widget. -/
inductive ShellEvent where
  | postToWidget (cell : Int × Int) (action : String)
  | delayMs (n : Nat)
  | clearSelectedCell
  | hideHighlightStyling
  deriving Repr, DecidableEq

/-- The ordered effect trace of `handleBack()`.  `hasIframe` says whether
the selected cell contains an iframe (grid.js gives every configured
widget an iframe since every widget has a url).  With a widget selected,
the escape message is posted first, then a 10ms `setTimeout` elapses, then
the selection is cleared; without one, highlights are hidden. -/
def handleBackTrace (hasIframe : Bool) (s : NavState) : List ShellEvent :=
  if s.isAsleep || s.confirmDialog then []
  else
    match s.selectedCell with
    | some cell =>
      (if hasIframe then [.postToWidget cell "escape"] else []) ++
        [.delayMs 10, .clearSelectedCell]
    | none => [.hideHighlightStyling]

/-- The ordered effect trace of `hideHighlights()` (the inactivity-timeout
handler): highlight styling is hidden, then, if a widget was selected, the
escape message is posted, a 10ms `setTimeout` elapses, and the selection is
cleared. -/
def hideHighlightsTrace (hasIframe : Bool) (s : NavState) : List ShellEvent :=
  .hideHighlightStyling ::
    (match s.selectedCell with
     | some cell =>
       (if hasIframe then [.postToWidget cell "escape"] else []) ++
         [.delayMs 10, .clearSelectedCell]
     | none => [])

-- Concrete sample states used by witnesses and counterexamples.

/-- An awake state with grid focus on the spanning cell and main content
set to the map. -/
def sampleGridState : NavState :=
  ⟨"map", .grid 2 1, none, false, false⟩

/-- The same state, but asleep. -/
def sampleAsleepState : NavState :=
  ⟨"map", .grid 2 1, none, true, false⟩

/-- A state in which the clock widget (cell (1,2)) is selected. -/
def sampleSelectedState : NavState :=
  ⟨"calendar", .grid 1 2, some (1, 2), false, false⟩

end Nav

namespace Picker

-- ===========================================================================
-- Google Photos Picker client (google-apis/google-picker-client.js)
-- ===========================================================================

/-- Outcome of one `fetch` inside `makePickerRequest`: an ok response with
a JSON body (abstracted to a number), a non-ok response with its HTTP
status, or a network error (an exception with no `status` field). -/
inductive FetchOutcome where
  | ok (data : Nat)
  | httpStatus (status : Nat)
  | netError
  deriving Repr, DecidableEq

/-- Observable effects of `makePickerRequest`: a fetch attempt (0-based
index), a call to `authManager.refreshGoogleAccessToken()`, and a
`setTimeout` sleep in milliseconds. -/
inductive ReqEvent where
  | attempt (n : Nat)
  | refreshToken
  | sleep (ms : Nat)
  deriving Repr, DecidableEq

/-- Result of `makePickerRequest`: the parsed JSON on success, or a thrown
error carrying the HTTP status when the error came from a response
(`error.status`), `none` for network errors. -/
inductive ReqResult where
  | success (data : Nat)
  | thrown (status : Option Nat)
  deriving Repr, DecidableEq

/-- `this.retryConfig.maxRetries`. -/
def maxRetries : Nat := 3

/-- `this.retryConfig.baseDelay` in milliseconds. -/
def baseDelay : Nat := 1000

/-- `this.retryConfig.maxDelay` in milliseconds. -/
def maxDelay : Nat := 10000

/-- The retry backoff: `Math.min(baseDelay * Math.pow(2, attempt), maxDelay)`. -/
def backoffDelay (attempt : Nat) : Nat :=
  min (baseDelay * 2 ^ attempt) maxDelay

/-- One iteration step of the retry loop in `makePickerRequest`.
`outcomes n` is the environment's response to the fetch of attempt `n`;
`refreshOk n` says whether the token refresh attempted after a 401 on
attempt `n` succeeds.  `fuel` counts the loop iterations still allowed
(`maxRetries + 1` at the top call); the `fuel = 0` case is the
unreachable `throw lastError` after the loop. -/
def goPicker (outcomes : Nat → FetchOutcome) (refreshOk : Nat → Bool) :
    Nat → Nat → ReqResult × List ReqEvent
  | _, 0 => (.thrown none, [])
  | attempt, fuel + 1 =>
    match outcomes attempt with
    | .ok d => (.success d, [.attempt attempt])
    | .httpStatus status =>
      if status = 401 ∧ attempt < maxRetries then
        if refreshOk attempt then
          let rest := goPicker outcomes refreshOk (attempt + 1) fuel
          (rest.1, .attempt attempt :: .refreshToken :: .sleep 1000 :: rest.2)
        else
          (.thrown (some 401), [.attempt attempt, .refreshToken])
      else if status = 403 then
        (.thrown (some 403), [.attempt attempt])
      else if 500 ≤ status ∨ status = 429 then
        if attempt < maxRetries then
          let rest := goPicker outcomes refreshOk (attempt + 1) fuel
          (rest.1, .attempt attempt :: .sleep (backoffDelay attempt) :: rest.2)
        else
          (.thrown (some status), [.attempt attempt])
      else
        (.thrown (some status), [.attempt attempt])
    | .netError =>
      if attempt < maxRetries then
        let rest := goPicker outcomes refreshOk (attempt + 1) fuel
        (rest.1, .attempt attempt :: .sleep (backoffDelay attempt) :: rest.2)
      else
        (.thrown none, [.attempt attempt])

/-- Embedding of `makePickerRequest`: the retry loop
`for (attempt = 0; attempt <= maxRetries; attempt++)`. -/
def makePickerRequest (outcomes : Nat → FetchOutcome) (refreshOk : Nat → Bool) :
    ReqResult × List ReqEvent :=
  goPicker outcomes refreshOk 0 (maxRetries + 1)

/-- Number of fetch attempts recorded in an event trace. -/
def attemptCount (l : List ReqEvent) : Nat :=
  l.countP fun e =>
    match e with
    | .attempt _ => true
    | _ => false

-- ===========================================================================
-- Album-selection polling (waitForAlbumSelection)
-- ===========================================================================

/-- Outcome of one polling iteration's try block: the session reports
`mediaItemsSet` and the selected photos are fetched (`completed`), the
session is still `pending`, or the poll (or photo fetch) throws. -/
inductive PollOutcome where
  | completed (totalPhotos : Nat)
  | pending
  | pollError
  deriving Repr, DecidableEq

/-- Result of `waitForAlbumSelection`: the success result with the photo
count, the `{success:false, timedOut:true}` timeout result, or a thrown
error (final-attempt poll failure). -/
inductive WaitResult where
  | success (totalPhotos : Nat)
  | timedOut
  | thrownErr
  deriving Repr, DecidableEq

/-- Observable effects of the polling loop: a poll of the session (1-based
attempt index) and a `setTimeout` sleep in milliseconds. -/
inductive WaitEvent where
  | poll (attempt : Nat)
  | sleep (ms : ℚ)
  deriving Repr, DecidableEq

/-- `PICKER_CONFIG.polling.interval` in milliseconds. -/
def pollingInterval : ℚ := 2000

/-- `PICKER_CONFIG.polling.maxAttempts`. -/
def pollingMaxAttempts : Nat := 90

/-- `PICKER_CONFIG.polling.backoffMultiplier` (1.1, modelled exactly). -/
def backoffMultiplier : ℚ := 11 / 10

/-- The maximum inter-poll delay (the literal 5000 in the loop). -/
def maxPollInterval : ℚ := 5000

/-- The inter-poll delay update:
`Math.min(currentInterval * backoffMultiplier, 5000)`. -/
def nextInterval (d : ℚ) : ℚ :=
  min (d * backoffMultiplier) maxPollInterval

/-- One iteration of the polling loop in `waitForAlbumSelection`, at the
given 1-based `attempt` with the current inter-poll `interval`.
`outcomes n` is the environment's outcome for poll `n`; `fuel` is
`maxAttempts - attempt + 1`, the number of iterations left.  A completed
poll returns the photos; a pending poll sleeps `interval` and retries with
the updated interval; a throwing poll rethrows on the final attempt and
otherwise sleeps `interval` (without updating it) and retries. -/
def goWait (outcomes : Nat → PollOutcome) (maxAttempts : Nat) :
    Nat → ℚ → Nat → WaitResult × List WaitEvent
  | _, _, 0 => (.timedOut, [])
  | attempt, interval, fuel + 1 =>
    match outcomes attempt with
    | .completed n => (.success n, [.poll attempt])
    | .pending =>
      let rest := goWait outcomes maxAttempts (attempt + 1) (nextInterval interval) fuel
      (rest.1, .poll attempt :: .sleep interval :: rest.2)
    | .pollError =>
      if attempt = maxAttempts then (.thrownErr, [.poll attempt])
      else
        let rest := goWait outcomes maxAttempts (attempt + 1) interval fuel
        (rest.1, .poll attempt :: .sleep interval :: rest.2)

/-- Embedding of `waitForAlbumSelection(sessionId, maxAttempts)`: the loop
`for (attempt = 1; attempt <= maxAttempts; attempt++)` starting from the
configured 2000ms interval. -/
def waitForAlbumSelection (outcomes : Nat → PollOutcome) (maxAttempts : Nat) :
    WaitResult × List WaitEvent :=
  goWait outcomes maxAttempts 1 pollingInterval maxAttempts

/-- Number of session polls recorded in an event trace. -/
def pollCount (l : List WaitEvent) : Nat :=
  l.countP fun e =>
    match e with
    | .poll _ => true
    | _ => false

/-- The delays of the sleep events of a trace, in order. -/
def sleepDelays : List WaitEvent → List ℚ
  | [] => []
  | .sleep d :: rest => d :: sleepDelays rest
  | .poll _ :: rest => sleepDelays rest

end Picker

-- ===========================================================================
-- Helper lemmas: JS object operations
-- ===========================================================================

theorem jsLookup_jsDeleteKey_self (k : String) (l : List (String × α)) :
    jsLookup k (jsDeleteKey k l) = none := by
  induction l with
  | nil => rfl
  | cons p rest ih =>
    by_cases h : p.1 = k
    · simpa [jsDeleteKey, h] using ih
    · simpa [jsDeleteKey, jsLookup, h] using ih

theorem jsLookup_jsDeleteKey_ne (k t : String) (l : List (String × α)) (h : k ≠ t) :
    jsLookup k (jsDeleteKey t l) = jsLookup k l := by
  induction l with
  | nil => rfl
  | cons p rest ih =>
    by_cases hp : p.1 = t
    · have hk : p.1 ≠ k := fun hh => h (hh ▸ hp)
      rw [jsDeleteKey, if_pos hp, ih, jsLookup, if_neg hk]
    · by_cases hk : p.1 = k
      · rw [jsDeleteKey, if_neg hp, jsLookup, if_pos hk, jsLookup, if_pos hk]
      · rw [jsDeleteKey, if_neg hp, jsLookup, if_neg hk, ih, jsLookup, if_neg hk]

theorem mem_of_mem_jsDeleteKey {k : String} {l : List (String × α)} {e : String × α}
    (h : e ∈ jsDeleteKey k l) : e ∈ l := by
  induction l with
  | nil => simp [jsDeleteKey] at h
  | cons p rest ih =>
    by_cases hp : p.1 = k
    · rw [jsDeleteKey, if_pos hp] at h
      exact List.mem_cons_of_mem _ (ih h)
    · rw [jsDeleteKey, if_neg hp] at h
      rcases List.mem_cons.mp h with h | h
      · exact h ▸ List.mem_cons_self _ _
      · exact List.mem_cons_of_mem _ (ih h)

theorem mem_jsSetKey_cases {k : String} {v : α} {l : List (String × α)} {e : String × α}
    (h : e ∈ jsSetKey k v l) : e = (k, v) ∨ e ∈ l := by
  induction l with
  | nil =>
    rw [jsSetKey] at h
    exact Or.inl (List.mem_singleton.mp h)
  | cons p rest ih =>
    by_cases hp : p.1 = k
    · rw [jsSetKey, if_pos hp] at h
      rcases List.mem_cons.mp h with h | h
      · exact Or.inl h
      · exact Or.inr (List.mem_cons_of_mem _ h)
    · rw [jsSetKey, if_neg hp] at h
      rcases List.mem_cons.mp h with h | h
      · exact Or.inr (h ▸ List.mem_cons_self _ _)
      · rcases ih h with h | h
        · exact Or.inl h
        · exact Or.inr (List.mem_cons_of_mem _ h)

theorem jsSetKey_ne_nil (k : String) (v : α) (l : List (String × α)) :
    jsSetKey k v l ≠ [] := by
  cases l with
  | nil => simp [jsSetKey]
  | cons p rest =>
    rw [jsSetKey]
    split <;> simp

namespace JwtAuth

-- ===========================================================================
-- C1: get_valid_token refresh buffer
-- ===========================================================================

/-- C1, counterexample.  The claim says a token expiring 5 or more minutes
in the future is returned as stored with `refreshed: false`, but for a
token expiring in exactly 5 minutes (`now = expires_at - bufferTime`) the
code's `now >= expiresAt - bufferTime` test fires and the token is
refreshed, so the stored token is not returned. -/
theorem getValidToken_boundary_cex :
    handleGetValidTokenOperation (some acctBoundary) 0 (.success "newTok" 3600) ≠
      .token acctBoundary.access_token acctBoundary.expires_at false := by
  decide

/-- C1, amended.  For a stored account, `get_valid_token` refreshes exactly
when `now ≥ expires_at - bufferTime` (token expiring in 5 minutes or
less), returning either the refreshed token with `refreshed: true` or a
refresh-failure error and never the stored token unrefreshed; a token
expiring strictly more than 5 minutes in the future is returned as stored
with `refreshed: false`. -/
theorem getValidToken_refresh_buffer (acct : Account) (now : Int)
    (refresh : RefreshResult) :
    (now ≥ acct.expires_at - bufferTime →
      handleGetValidTokenOperation (some acct) now refresh =
        match refresh with
        | .success tok expires_in => .token tok (now + expires_in * 1000) true
        | .failure err => .refreshFailed err) ∧
    (now < acct.expires_at - bufferTime →
      handleGetValidTokenOperation (some acct) now refresh =
        .token acct.access_token acct.expires_at false) := by
  constructor
  · intro h
    simp only [handleGetValidTokenOperation]
    rw [if_pos h]
    cases refresh <;> rfl
  · intro h
    simp only [handleGetValidTokenOperation]
    rw [if_neg (not_le.mpr h)]

/-- C1, witness: a token expiring well in the future is returned as stored
with `refreshed: false`. -/
theorem getValidToken_refresh_buffer_witness :
    handleGetValidTokenOperation (some acctFresh) 0 (.success "newTok" 3600) =
      .token acctFresh.access_token acctFresh.expires_at false :=
  (getValidToken_refresh_buffer acctFresh 0 (.success "newTok" 3600)).2 (by decide)

-- ===========================================================================
-- C2: beta whitelist denial
-- ===========================================================================

/-- C2, counterexample.  The claim says a non-whitelisted email is denied
with reason `beta_not_whitelisted` whenever `beta_mode_enabled='true'`,
but `checkUserAccess` tests `maintenance_mode` first: with both flags set
the denial reason is `maintenance_mode`. -/
theorem betaWhitelist_denial_cex :
    accessControlResponse ⟨some "true", some "true", none⟩ [] "a@example.com" =
        some (403, "maintenance_mode") ∧
    accessControlResponse ⟨some "true", some "true", none⟩ [] "a@example.com" ≠
        some (403, "beta_not_whitelisted") := by
  decide

/-- C2, amended.  For a Google-token-authenticated request, when the
access-control config has `beta_mode_enabled='true'`, `maintenance_mode`
is not `'true'`, and the verified user's email is absent from
`beta_whitelist`, the request is denied with HTTP 403 and reason
`beta_not_whitelisted`. -/
theorem betaWhitelist_denial (config : AccessConfig) (whitelist : List String)
    (email : String) (hbeta : config.beta_mode_enabled = some "true")
    (hmaint : config.maintenance_mode ≠ some "true") (hmem : email ∉ whitelist) :
    accessControlResponse config whitelist email = some (403, "beta_not_whitelisted") := by
  simp [accessControlResponse, checkUserAccess, hbeta, hmaint, hmem]

/-- C2, witness. -/
theorem betaWhitelist_denial_witness :
    accessControlResponse ⟨none, some "true", none⟩ ["w@example.com"] "a@example.com" =
      some (403, "beta_not_whitelisted") :=
  betaWhitelist_denial ⟨none, some "true", none⟩ ["w@example.com"] "a@example.com"
    (by decide) (by decide) (by decide)

-- ===========================================================================
-- C3: settings round-trip
-- ===========================================================================

/-- C3.  Saving a settings object and loading it back returns exactly the
object with the `tokenAccounts` key removed: the loaded object is the
saved object, `tokenAccounts` is absent from it, and every other key maps
to its original value. -/
theorem settings_round_trip (S : SettingsObj) (k : String) :
    handleLoadOperation (some (handleSaveOperation S)) =
        some (jsDeleteKey "tokenAccounts" S) ∧
    jsLookup "tokenAccounts" (handleSaveOperation S) = none ∧
    (k ≠ "tokenAccounts" → jsLookup k (handleSaveOperation S) = jsLookup k S) :=
  ⟨rfl, jsLookup_jsDeleteKey_self "tokenAccounts" S,
    fun hk => jsLookup_jsDeleteKey_ne k "tokenAccounts" S hk⟩

/-- C3, witness. -/
theorem settings_round_trip_witness :
    handleLoadOperation (some (handleSaveOperation
        [("theme", "dark"), ("tokenAccounts", "x"), ("sleepTime", "22:00")])) =
      some [("theme", "dark"), ("sleepTime", "22:00")] ∧
    jsLookup "theme" (handleSaveOperation
        [("theme", "dark"), ("tokenAccounts", "x"), ("sleepTime", "22:00")]) =
      some "dark" := by
  have h := settings_round_trip
    [("theme", "dark"), ("tokenAccounts", "x"), ("sleepTime", "22:00")] "theme"
  exact ⟨h.1.trans (by decide), (h.2.2 (by decide)).trans (by decide)⟩

-- ===========================================================================
-- C9: remove_account leaves no empty provider object
-- ===========================================================================

/-- C9.  The token store never gains a provider key mapping to an empty
object: `remove_account` preserves the no-empty-provider invariant
(deleting the provider key when its last account type is removed), the
only operation that adds accounts (`store_tokens`) preserves it too, and
removing a non-existent provider/account_type returns `removed: false`
and leaves the stored tokens unchanged. -/
theorem removeAccount_no_empty_provider (tokens : Tokens)
    (provider accountType : String) (acct : Account) :
    (NoEmptyProvider tokens →
      NoEmptyProvider (handleRemoveAccountOperation tokens provider accountType).newTokens) ∧
    (NoEmptyProvider tokens →
      NoEmptyProvider (handleStoreTokensOperation tokens provider accountType acct)) ∧
    ((jsLookup provider tokens).bind (jsLookup accountType) = none →
      handleRemoveAccountOperation tokens provider accountType = ⟨false, tokens⟩) := by
  refine ⟨?_, ?_, ?_⟩
  · intro hinv
    simp only [handleRemoveAccountOperation]
    split
    · exact hinv
    · split
      · exact hinv
      · split
        · intro e he
          exact hinv e (mem_of_mem_jsDeleteKey he)
        · rename_i hne
          intro e he
          rcases mem_jsSetKey_cases he with h | h
          · subst h
            exact hne
          · exact hinv e h
  · intro hinv e he
    rcases mem_jsSetKey_cases he with h | h
    · subst h
      exact jsSetKey_ne_nil _ _ _
    · exact hinv e h
  · intro hnone
    cases hp : jsLookup provider tokens with
    | none => simp only [handleRemoveAccountOperation, hp]
    | some provAccounts =>
      rw [hp] at hnone
      rw [Option.some_bind] at hnone
      simp only [handleRemoveAccountOperation, hp, hnone]

/-- C9, witness: removing the single Google account deletes the provider
key (no empty object remains), and removing a missing provider reports
`removed: false` with the store unchanged. -/
theorem removeAccount_no_empty_provider_witness :
    NoEmptyProvider (handleRemoveAccountOperation tokensOneGoogle "google" "primary").newTokens ∧
    handleRemoveAccountOperation tokensOneGoogle "ms" "primary" = ⟨false, tokensOneGoogle⟩ :=
  ⟨(removeAccount_no_empty_provider tokensOneGoogle "google" "primary" acctFresh).1
      (by decide),
   (removeAccount_no_empty_provider tokensOneGoogle "ms" "primary" acctFresh).2.2
      (by decide)⟩

end JwtAuth

namespace Nav

-- ===========================================================================
-- Helper lemmas: navigation
-- ===========================================================================

theorem gridInBounds_normalize (row col : Int) (h1 : 1 ≤ row) (h2 : row ≤ 3)
    (h3 : 1 ≤ col) (h4 : col ≤ 2) :
    gridInBounds (.grid (normalizeRow row col) col) := by
  simp only [normalizeRow, gridInBounds]
  split_ifs with h <;> omega

theorem nextFocus_gridInBounds (d : Dir) (m : String) (f : Focus)
    (h : gridInBounds f) : gridInBounds (nextFocus d m f) := by
  cases f with
  | menu i =>
    cases d with
    | right => exact (by decide : gridInBounds (.grid 2 1))
    | up => trivial
    | down => trivial
    | left => trivial
  | grid row col =>
    simp only [gridInBounds] at h
    obtain ⟨h1, h2, h3, h4, _⟩ := h
    cases d with
    | left =>
      by_cases hc : col = 1
      · simp only [nextFocus, if_pos hc, gridInBounds]
      · simp only [nextFocus, if_neg hc]
        split_ifs with hcc
        · exact gridInBounds_normalize row 1 h1 h2 (by omega) (by omega)
        · exact gridInBounds_normalize row (col - 1) h1 h2 (by omega) (by omega)
    | right =>
      simp only [nextFocus]
      split_ifs with hcc
      · exact gridInBounds_normalize row 2 h1 h2 (by omega) (by omega)
      · exact gridInBounds_normalize row (col + 1) h1 h2 (by omega) (by omega)
    | up =>
      simp only [nextFocus]
      split_ifs with hcc
      · exact gridInBounds_normalize 1 col (by omega) (by omega) h3 h4
      · exact gridInBounds_normalize (row - 1) col (by omega) (by omega) h3 h4
    | down =>
      simp only [nextFocus]
      split_ifs with hcc
      · exact gridInBounds_normalize 3 col (by omega) (by omega) h3 h4
      · exact gridInBounds_normalize (row + 1) col (by omega) (by omega) h3 h4

theorem moveFocus_focus_gridInBounds (d : Dir) (s : NavState)
    (h : gridInBounds s.focus) : gridInBounds (moveFocus d s).focus := by
  rw [moveFocus]
  split_ifs with h1 h2
  · exact h
  · exact h
  · exact nextFocus_gridInBounds d s.currentMain s.focus h

theorem jsFindIndex_eq_neg_one (m : String) (l : List String) (h : m ∉ l) :
    jsFindIndex (fun id => id == m) l = -1 := by
  induction l with
  | nil => rfl
  | cons a rest ih =>
    simp only [List.mem_cons, not_or] at h
    have ha : (a == m) = false := beq_eq_false_iff_ne.mpr fun hh => h.1 hh.symm
    have h1 : m ∉ rest := h.2
    simp only [jsFindIndex, ha, ih h1]
    decide

theorem sidebarIndexOf_not_mem (m : String) (h : m ∉ sidebarOptionIds) :
    sidebarIndexOf m = 0 := by
  simp only [sidebarIndexOf, jsFindIndex_eq_neg_one m sidebarOptionIds h]
  decide

-- ===========================================================================
-- C4: grid navigation stays in bounds
-- ===========================================================================

/-- C4.  Processing any sequence of direction inputs with `moveFocus` from
a state whose grid focus is in bounds keeps every grid focus within
columns 1..2 and rows 1..3, with column 1 rows 2 and 3 normalized to row 2
(the spanning calendar tile, so column 1 row 3 never occurs). -/
theorem moveFocusSeq_in_bounds (dirs : List Dir) (s : NavState)
    (h : gridInBounds s.focus) : gridInBounds (moveFocusSeq dirs s).focus := by
  induction dirs generalizing s with
  | nil => exact h
  | cons d rest ih => exact ih (moveFocus d s) (moveFocus_focus_gridInBounds d s h)

/-- C4, witness. -/
theorem moveFocusSeq_in_bounds_witness :
    gridInBounds (moveFocusSeq [.down, .down, .right, .up, .left, .left, .up]
      sampleGridState).focus :=
  moveFocusSeq_in_bounds [.down, .down, .right, .up, .left, .left, .up]
    sampleGridState (by decide)

-- ===========================================================================
-- C5: leaving column 1 leftward lands on the sidebar index of currentMain
-- ===========================================================================

/-- C5, counterexample.  The claim says any `moveFocus('left')` invocation
with grid focus in column 1 and no widget selected enters the menu, but
when the dashboard is asleep (or a confirm dialog is open) `moveFocus`
returns without changing the focus. -/
theorem moveFocus_left_asleep_cex :
    (moveFocus .left sampleAsleepState).focus = .grid 2 1 ∧
    (moveFocus .left sampleAsleepState).focus ≠ .menu (sidebarIndexOf "map") := by
  decide

/-- C5, amended.  When `moveFocus('left')` is invoked with grid focus in
column 1, no widget selected, the dashboard awake and no confirm dialog
open, the focus becomes `{type:'menu', index:i}` where `i` is the index of
`currentMain` in the sidebar option list (calendar=0, map=1, camera=2, and
in general the option's position in the list), and `i = 0` when
`currentMain` is absent from the list. -/
theorem moveFocus_left_enters_menu (s : NavState) (row : Int)
    (hA : s.isAsleep = false) (hC : s.confirmDialog = false)
    (hSel : s.selectedCell = none) (hFocus : s.focus = .grid row 1) :
    (moveFocus .left s).focus = .menu (sidebarIndexOf s.currentMain) ∧
    sidebarIndexOf "calendar" = 0 ∧ sidebarIndexOf "map" = 1 ∧
    sidebarIndexOf "camera" = 2 ∧
    (∀ m, m ∈ sidebarOptionIds → jsIndex sidebarOptionIds (sidebarIndexOf m) = some m) ∧
    (∀ m, m ∉ sidebarOptionIds → sidebarIndexOf m = 0) := by
  refine ⟨?_, by decide, by decide, by decide, ?_, sidebarIndexOf_not_mem⟩
  · simp [moveFocus, nextFocus, hA, hC, hSel, hFocus]
  · intro m hm
    simp only [sidebarOptionIds, List.mem_cons, List.not_mem_nil, or_false] at hm
    rcases hm with rfl | rfl | rfl | rfl | rfl | rfl | rfl <;> decide

/-- C5, witness: with `currentMain = "map"` the menu opens at index 1. -/
theorem moveFocus_left_enters_menu_witness :
    (moveFocus .left sampleGridState).focus = .menu (sidebarIndexOf "map") ∧
    sidebarIndexOf "map" = 1 :=
  have h := moveFocus_left_enters_menu sampleGridState 2 rfl rfl rfl rfl
  ⟨h.1, h.2.2.1⟩

-- ===========================================================================
-- C6: selectedCell only ever coexists with grid focus
-- ===========================================================================

theorem moveFocus_mutex (d : Dir) (s : NavState)
    (ih : s.selectedCell.isSome = true → s.focus.isGrid = true) :
    (moveFocus d s).selectedCell.isSome = true → (moveFocus d s).focus.isGrid = true := by
  rw [moveFocus]
  split_ifs with h1 h2
  · exact ih
  · exact ih
  · intro h
    exact absurd h h2

theorem handleEnter_mutex (b : Bool) (s : NavState)
    (ih : s.selectedCell.isSome = true → s.focus.isGrid = true) :
    (handleEnter b s).selectedCell.isSome = true →
      (handleEnter b s).focus.isGrid = true := by
  rw [handleEnter]
  split_ifs with h1 hb
  · exact ih
  · split
    · rename_i row col hf
      split
      · intro _
        show s.focus.isGrid = true
        rw [hf]
        rfl
      · exact ih
    · split
      · rw [handleMenuSelection]
        split_ifs with ho
        · intro _
          rfl
        · exact ih
      · exact ih
  · split
    · split
      · exact ih
      · exact ih
    · split
      · rw [handleMenuSelection]
        split_ifs with ho
        · intro _
          rfl
        · exact ih
      · exact ih

theorem handleBack_mutex (s : NavState)
    (ih : s.selectedCell.isSome = true → s.focus.isGrid = true) :
    (handleBack s).selectedCell.isSome = true →
      (handleBack s).focus.isGrid = true := by
  rw [handleBack]
  split_ifs with h1 h2
  · exact ih
  · intro h
    simp at h
  · exact ih

theorem openMenu_mutex (s : NavState)
    (ih : s.selectedCell.isSome = true → s.focus.isGrid = true) :
    (openMenuWithCurrentSelection s).selectedCell.isSome = true →
      (openMenuWithCurrentSelection s).focus.isGrid = true := by
  rw [openMenuWithCurrentSelection]
  split_ifs with h1
  · exact ih
  · intro h
    simp only [Bool.or_eq_true, not_or, Bool.not_eq_true] at h1
    have h' : s.selectedCell.isSome = true := h
    rw [h1.2] at h'
    exact absurd h' (by decide)

/-- C6.  In every state reachable through `handleEnter`, `moveFocus`,
`handleBack` and `openMenuWithCurrentSelection`, at most one highlight
driver is active: `selectedCell` is non-null only while the focus is a
grid focus, never while `focus.type === 'menu'`. -/
theorem selectedCell_only_with_grid_focus (s : NavState) (h : Reach s) :
    s.selectedCell.isSome = true → s.focus.isGrid = true := by
  induction h with
  | init => intro hh; simp [initialState] at hh
  | enter b _ ih => exact handleEnter_mutex b _ ih
  | move d _ ih => exact moveFocus_mutex d _ ih
  | back _ ih => exact handleBack_mutex _ ih
  | openMenu _ ih => exact openMenu_mutex _ ih

/-- C6, witness: after selecting the header widget from the initial state,
the focus is still a grid focus. -/
theorem selectedCell_only_with_grid_focus_witness :
    (handleEnter true initialState).focus.isGrid = true :=
  selectedCell_only_with_grid_focus (handleEnter true initialState)
    (Reach.enter true Reach.init) (by decide)

-- ===========================================================================
-- C7: escape is posted before selectedCell is cleared
-- ===========================================================================

/-- C7.  With a widget selected (its cell containing an iframe), both
`handleBack` (awake, no confirm dialog) and the inactivity-timeout handler
`hideHighlights` first post `{action:'escape'}` to the selected cell's
iframe, then let the 10ms `setTimeout` elapse, and only then clear
`selectedCell`: in both effect traces the escape post strictly precedes
the clearing. -/
theorem escape_before_clear (s : NavState) (cell : Int × Int)
    (hSel : s.selectedCell = some cell) (hA : s.isAsleep = false)
    (hC : s.confirmDialog = false) :
    handleBackTrace true s =
      [.postToWidget cell "escape", .delayMs 10, .clearSelectedCell] ∧
    hideHighlightsTrace true s =
      [.hideHighlightStyling, .postToWidget cell "escape", .delayMs 10,
        .clearSelectedCell] := by
  constructor
  · simp [handleBackTrace, hA, hC, hSel]
  · simp [hideHighlightsTrace, hSel]

/-- C7, witness. -/
theorem escape_before_clear_witness :
    handleBackTrace true sampleSelectedState =
      [.postToWidget (1, 2) "escape", .delayMs 10, .clearSelectedCell] :=
  (escape_before_clear sampleSelectedState (1, 2) rfl rfl rfl).1

end Nav

namespace Picker

-- ===========================================================================
-- Helper lemmas: picker retry loop
-- ===========================================================================

theorem attemptCount_goPicker_le (o : Nat → FetchOutcome) (r : Nat → Bool) :
    ∀ fuel a, attemptCount (goPicker o r a fuel).2 ≤ fuel := by
  intro fuel
  induction fuel with
  | zero => intro a; simp [goPicker, attemptCount]
  | succ fuel ih =>
    intro a
    rw [goPicker]
    split
    · simp [attemptCount, List.countP_cons]
    · split_ifs with h1 h2 h3 h4 h5
      · have h := ih (a + 1)
        simp only [attemptCount] at h ⊢
        simp [List.countP_cons]
        omega
      · simp [attemptCount, List.countP_cons]
      · simp [attemptCount, List.countP_cons]
      · have h := ih (a + 1)
        simp only [attemptCount] at h ⊢
        simp [List.countP_cons]
        omega
      · simp [attemptCount, List.countP_cons]
      · simp [attemptCount, List.countP_cons]
    · split_ifs with h1
      · have h := ih (a + 1)
        simp only [attemptCount] at h ⊢
        simp [List.countP_cons]
        omega
      · simp [attemptCount, List.countP_cons]

-- ===========================================================================
-- C8: makePickerRequest retry policy
-- ===========================================================================

/-- C8.  The retry policy of `makePickerRequest`: a 403 response is thrown
immediately and never retried; the loop performs at most
`maxRetries + 1 = 4` fetch attempts in total (so up to 3 additional
attempts); a retryable 5xx or 429 response at a non-final attempt sleeps
the exponential backoff `min(baseDelay * 2^attempt, maxDelay)`
(1000ms, 2000ms, 4000ms for the three possible retries) before the next
attempt; and a 401 response at a non-final attempt triggers one token
refresh before retrying. -/
theorem makePickerRequest_retry_policy :
    (∀ o r a fuel, o a = FetchOutcome.httpStatus 403 →
      goPicker o r a (fuel + 1) = (.thrown (some 403), [.attempt a])) ∧
    (∀ o r, attemptCount (makePickerRequest o r).2 ≤ maxRetries + 1) ∧
    (∀ o r a fuel st, 500 ≤ st ∨ st = 429 → o a = .httpStatus st →
      a < maxRetries →
      goPicker o r a (fuel + 1) =
        ((goPicker o r (a + 1) fuel).1,
          .attempt a :: .sleep (backoffDelay a) :: (goPicker o r (a + 1) fuel).2)) ∧
    (∀ o r a fuel, o a = .httpStatus 401 → a < maxRetries → r a = true →
      goPicker o r a (fuel + 1) =
        ((goPicker o r (a + 1) fuel).1,
          .attempt a :: .refreshToken :: .sleep 1000 ::
            (goPicker o r (a + 1) fuel).2)) ∧
    maxRetries = 3 ∧ backoffDelay 0 = 1000 ∧ backoffDelay 1 = 2000 ∧
    backoffDelay 2 = 4000 ∧ maxDelay = 10000 := by
  refine ⟨?_, ?_, ?_, ?_, rfl, by decide, by decide, by decide, rfl⟩
  · intro o r a fuel h
    simp [goPicker, h]
  · intro o r
    exact attemptCount_goPicker_le o r (maxRetries + 1) 0
  · intro o r a fuel st hst hout hlt
    have hne401 : ¬(st = 401 ∧ a < maxRetries) := by
      rintro ⟨rfl, _⟩
      omega
    have hne403 : ¬st = 403 := by omega
    rw [goPicker, hout]
    simp only
    rw [if_neg hne401, if_neg hne403, if_pos hst, if_pos hlt]
  · intro o r a fuel hout hlt hr
    rw [goPicker, hout]
    simp only
    rw [if_pos (show True ∧ a < maxRetries from ⟨trivial, hlt⟩), if_pos hr]

/-- C8, witness: a 403 on the first attempt is thrown without retry, and
the attempt count on an all-503 run stays within the bound. -/
theorem makePickerRequest_retry_policy_witness :
    goPicker (fun _ => .httpStatus 403) (fun _ => true) 0 4 =
      (.thrown (some 403), [.attempt 0]) ∧
    attemptCount (makePickerRequest (fun _ => .httpStatus 503) (fun _ => true)).2 ≤
      maxRetries + 1 :=
  ⟨makePickerRequest_retry_policy.1 (fun _ => .httpStatus 403) (fun _ => true) 0 3 rfl,
   makePickerRequest_retry_policy.2.1 (fun _ => .httpStatus 503) (fun _ => true)⟩

-- ===========================================================================
-- Helper lemmas: album-selection polling
-- ===========================================================================

theorem pollCount_goWait_le (o : Nat → PollOutcome) (m : Nat) :
    ∀ fuel a i, pollCount (goWait o m a i fuel).2 ≤ fuel := by
  intro fuel
  induction fuel with
  | zero => intro a i; simp [goWait, pollCount]
  | succ fuel ih =>
    intro a i
    rw [goWait]
    split
    · simp [pollCount, List.countP_cons]
    · have h := ih (a + 1) (nextInterval i)
      simp only [pollCount] at h ⊢
      simp [List.countP_cons]
      omega
    · split_ifs with h1
      · simp [pollCount, List.countP_cons]
      · have h := ih (a + 1) i
        simp only [pollCount] at h ⊢
        simp [List.countP_cons]
        omega

theorem goWait_pending_timedOut (o : Nat → PollOutcome) (m : Nat)
    (h : ∀ k, o k = .pending) :
    ∀ fuel a i, (goWait o m a i fuel).1 = .timedOut := by
  intro fuel
  induction fuel with
  | zero => intro a i; rfl
  | succ fuel ih =>
    intro a i
    rw [goWait, h a]
    exact ih (a + 1) (nextInterval i)

theorem goWait_pending_sleeps (o : Nat → PollOutcome) (m : Nat)
    (h : ∀ k, o k = .pending) :
    ∀ fuel a i, sleepDelays (goWait o m a i fuel).2 =
      (List.range fuel).map (fun k => nextInterval^[k] i) := by
  intro fuel
  induction fuel with
  | zero => intro a i; rfl
  | succ fuel ih =>
    intro a i
    rw [goWait, h a]
    show sleepDelays (.poll a :: .sleep i :: (goWait o m (a + 1) (nextInterval i) fuel).2) = _
    rw [sleepDelays, sleepDelays, ih (a + 1) (nextInterval i)]
    rw [List.range_succ_eq_map, List.map_cons, List.map_map]
    congr 1

theorem goWait_sleeps_le (o : Nat → PollOutcome) (m : Nat) :
    ∀ fuel a i, 0 ≤ i → i ≤ maxPollInterval →
      ∀ d ∈ sleepDelays (goWait o m a i fuel).2, d ≤ maxPollInterval := by
  intro fuel
  induction fuel with
  | zero =>
    intro a i _ _ d hd
    simp [goWait, sleepDelays] at hd
  | succ fuel ih =>
    intro a i h0 hcap d hd
    rw [goWait] at hd
    rcases hout : o a with n | hp | he
    · rw [hout] at hd
      simp [sleepDelays] at hd
    · rw [hout] at hd
      show d ≤ maxPollInterval
      rw [show sleepDelays (.poll a :: .sleep i ::
            (goWait o m (a + 1) (nextInterval i) fuel).2) =
          i :: sleepDelays (goWait o m (a + 1) (nextInterval i) fuel).2 from rfl] at hd
      rcases List.mem_cons.mp hd with rfl | hd
      · exact hcap
      · refine ih (a + 1) (nextInterval i) ?_ ?_ d hd
        · have : 0 ≤ i * backoffMultiplier := by
            have hb : (0 : ℚ) ≤ backoffMultiplier := by norm_num [backoffMultiplier]
            exact mul_nonneg h0 hb
          have h5 : (0 : ℚ) ≤ maxPollInterval := by norm_num [maxPollInterval]
          exact le_min this h5
        · exact min_le_right _ _
    · rw [hout] at hd
      by_cases hm : a = m
      · rw [if_pos hm] at hd
        simp [sleepDelays] at hd
      · rw [if_neg hm] at hd
        rw [show sleepDelays (.poll a :: .sleep i ::
              (goWait o m (a + 1) i fuel).2) =
            i :: sleepDelays (goWait o m (a + 1) i fuel).2 from rfl] at hd
        rcases List.mem_cons.mp hd with rfl | hd
        · exact hcap
        · exact ih (a + 1) i h0 hcap d hd

-- ===========================================================================
-- C10: waitForAlbumSelection terminates
-- ===========================================================================

/-- C10.  `waitForAlbumSelection` always terminates: it performs at most
`maxAttempts` polls (`pollingMaxAttempts = 90` by default); when every
poll reports `mediaItemsSet` false (pending) it returns the
`{success:false, timedOut:true}` result instead of polling forever, with
the inter-poll delays following the 1.1-factor growth
`nextInterval d = min (d * 1.1) 5000` starting from 2000ms; and every
inter-poll delay is capped at 5000ms. -/
theorem waitForAlbumSelection_terminates (outcomes : Nat → PollOutcome)
    (maxAttempts : Nat) :
    pollCount (waitForAlbumSelection outcomes maxAttempts).2 ≤ maxAttempts ∧
    pollingMaxAttempts = 90 ∧
    ((∀ k, outcomes k = .pending) →
      (waitForAlbumSelection outcomes maxAttempts).1 = .timedOut) ∧
    ((∀ k, outcomes k = .pending) →
      sleepDelays (waitForAlbumSelection outcomes maxAttempts).2 =
        (List.range maxAttempts).map (fun k => nextInterval^[k] pollingInterval)) ∧
    (∀ d ∈ sleepDelays (waitForAlbumSelection outcomes maxAttempts).2,
      d ≤ maxPollInterval) := by
  refine ⟨pollCount_goWait_le outcomes maxAttempts maxAttempts 1 pollingInterval,
    rfl, ?_, ?_, ?_⟩
  · intro h
    exact goWait_pending_timedOut outcomes maxAttempts h maxAttempts 1 pollingInterval
  · intro h
    exact goWait_pending_sleeps outcomes maxAttempts h maxAttempts 1 pollingInterval
  · exact goWait_sleeps_le outcomes maxAttempts maxAttempts 1 pollingInterval
      (by norm_num [pollingInterval]) (by norm_num [pollingInterval, maxPollInterval])

/-- C10, witness: a session that stays pending for ever times out after
the configured number of polls. -/
theorem waitForAlbumSelection_terminates_witness :
    pollCount (waitForAlbumSelection (fun _ => .pending) 3).2 ≤ 3 ∧
    (waitForAlbumSelection (fun _ => .pending) 3).1 = .timedOut :=
  have h := waitForAlbumSelection_terminates (fun _ => .pending) 3
  ⟨h.1, h.2.2.1 (fun _ => rfl)⟩

end Picker

end Dashie
